import Mathlib

/-!
Verification of the gocryptotrader venue-adapter wrappers.

Shallow embedding of the two adapter wrapper files of the repository:
`exchanges/huobihadax` (package `huobihadax`, type `HUOBIHADAX`) and
`exchanges/itbit/itbit_wrapper.go` (package `itbit`, type `ItBit`).

Go `float64` market quantities are embedded as `ℚ` (the wrappers only copy
and compare these values, never round them).  A Go `(value, error)` return
pair is embedded as `value × Option GoError`.  Functions that issue outbound
network calls additionally return the list of calls they issued, so that
"no network call" claims are statements about that trace.

The market-data stores of the `ticker` and `orderbook` packages are not part
of the given sources; they are modelled from the specification and marked as
such in their doc comments.
-/

namespace GoCryptoTrader

/-- Go error values that the embedded wrapper code can produce.
`errNotYetImplemented` and `errFunctionNotSupported` embed
`common.ErrNotYetImplemented` and `common.ErrFunctionNotSupported`;
`errorsNew msg` embeds `errors.New(msg)`; `noWalletFound c a` embeds
`fmt.Errorf("No wallet found with currency: %s with amount >= %v", c, a)`
carrying its two verb arguments; `parseFailure s` embeds the `strconv`
syntax error for input `s`; `tickerNotFound` / `orderbookNotFound` embed
the cache-miss errors of the `ticker` / `orderbook` packages; `venue tag`
stands for an arbitrary error produced by a venue REST binding. -/
inductive GoError where
  | errNotYetImplemented
  | errFunctionNotSupported
  | errorsNew (msg : String)
  | noWalletFound (currency : String) (amount : ℚ)
  | parseFailure (s : String)
  | tickerNotFound
  | orderbookNotFound
  | venue (tag : String)
deriving DecidableEq, Repr

/-- Embeds `pair.CurrencyPair`: `firstCurrency` is the base currency,
`secondCurrency` the quote currency. -/
structure CurrencyPair where
  firstCurrency : String
  secondCurrency : String
deriving DecidableEq, Repr

/-- Embeds `p.Pair().String()`: base and quote concatenated. -/
def CurrencyPair.pairString (p : CurrencyPair) : String :=
  p.firstCurrency ++ p.secondCurrency

/-- Embeds `exchange.OrderSide` (a string-backed type): the two named
constants `exchange.Buy` / `exchange.Sell` plus any other string value. -/
inductive OrderSide where
  | buy
  | sell
  | otherSide (s : String)
deriving DecidableEq, Repr

/-- Embeds `exchange.OrderType`: the constants `exchange.Market` /
`exchange.Limit` plus any other string value. -/
inductive OrderType where
  | market
  | limit
  | otherType (s : String)
deriving DecidableEq, Repr

/-- Embeds `OrderSide.ToString()`. -/
def OrderSide.toGoString : OrderSide → String
  | .buy => "BUY"
  | .sell => "SELL"
  | .otherSide s => s

/-- Embeds `OrderType.ToString()`. -/
def OrderType.toGoString : OrderType → String
  | .market => "MARKET"
  | .limit => "LIMIT"
  | .otherType s => s

/-- Embeds `exchange.SubmitOrderResponse` with its Go zero value as
default. -/
structure SubmitOrderResponse where
  OrderID : String := ""
  IsOrderPlaced : Bool := false
deriving DecidableEq, Repr

/-- Embeds `exchange.AccountInfo`: the exchange name plus the balances
list (zero value: empty). -/
structure AccountInfo where
  ExchangeName : String := ""
  Currencies : List (String × ℚ) := []
deriving DecidableEq, Repr

/-- Embeds `common.StringToLower`. -/
def goStringToLower (s : String) : String :=
  ⟨s.data.map Char.toLower⟩

/-- The value of a digit sequence in base 10; `none` if any character is
not a digit (the empty sequence has value 0). -/
def digitsVal (l : List Char) : Option ℕ :=
  l.foldl (fun acc c =>
    acc.bind (fun n => if c.isDigit then some (10 * n + (c.toNat - 48)) else none))
    (some 0)

/-- The integer-literal parse underlying `goParseInt`:
`[+-]?digits`, `none` on anything else. -/
def goIntOfString (s : String) : Option Int :=
  match s.data with
  | [] => none
  | '-' :: rest => if rest.isEmpty then none else (digitsVal rest).map (fun n => -(n : Int))
  | '+' :: rest => if rest.isEmpty then none else (digitsVal rest).map (fun n => (n : Int))
  | l => (digitsVal l).map (fun n => (n : Int))

/-- Embeds Go `strconv.ParseInt(s, 0, 64)` on the inputs the wrappers
use: a decimal integer literal parses to its value with no error, any
string that is not an integer literal yields `(0, syntax error)` exactly
as in Go.  (Base prefixes, digit underscores and 64-bit range clamping
are not modelled; no claim depends on them.) -/
def goParseInt (s : String) : Int × Option GoError :=
  match goIntOfString s with
  | some n => (n, none)
  | none => (0, some (GoError.parseFailure s))

/-- Split a character sequence at the first `'.'`: the part before it,
and the part after it when one exists. -/
def splitIntFrac : List Char → List Char × Option (List Char)
  | [] => ([], none)
  | '.' :: rest => ([], some rest)
  | c :: rest =>
    let (i, f) := splitIntFrac rest
    (c :: i, f)

/-- Decimal-literal parse on characters: `digits[.digits]` with at least
one digit overall, as an exact rational. -/
def parseDecimalCore (l : List Char) : Option ℚ :=
  match splitIntFrac l with
  | (intPart, none) =>
    if intPart.isEmpty then none
    else (digitsVal intPart).map (fun n => (n : ℚ))
  | (intPart, some fracPart) =>
    if intPart.isEmpty ∧ fracPart.isEmpty then none
    else
      match digitsVal intPart, digitsVal fracPart with
      | some a, some b => some ((a : ℚ) + (b : ℚ) / (10 ^ fracPart.length))
      | _, _ => none

/-- Decimal-literal part of Go `strconv.ParseFloat`: parses
`[+-]?digits[.digits]` into an exact rational (exponent forms are not
modelled; no claim depends on them). -/
def parseDecimal (s : String) : Option ℚ :=
  match s.data with
  | '-' :: rest => (parseDecimalCore rest).map Neg.neg
  | '+' :: rest => parseDecimalCore rest
  | l => parseDecimalCore l

/-- Embeds Go `strconv.ParseFloat(s, 64)` on the decimal literals the
order-book payloads carry: a parsable string yields its value with no
error, an unparsable one yields `(0, syntax error)` exactly as in Go. -/
def goParseFloat (s : String) : ℚ × Option GoError :=
  match parseDecimal s with
  | some q => (q, none)
  | none => (0, some (GoError.parseFailure s))

/-! ## ItBit order submission (`ItBit.SubmitOrder`) -/

/-- Embeds one element of an itbit wallet's `Balances` array. -/
structure WalletBalance where
  Currency : String
  AvailableBalance : ℚ
deriving DecidableEq, Repr

/-- Embeds an itbit `Wallet`: its `ID` and its `Balances`. -/
structure Wallet where
  ID : String
  Balances : List WalletBalance
deriving DecidableEq, Repr

/-- The argument tuple of the venue-native binding call
`i.PlaceOrder(wallet, side.ToString(), orderType.ToString(),
p.FirstCurrency.String(), amount, price, p.Pair().String(), "")`,
in source order. -/
structure PlaceOrderArgs where
  wallet : String
  side : String
  orderType : String
  currency : String
  amount : ℚ
  price : ℚ
  instrument : String
  clientOrderReference : String
deriving DecidableEq, Repr

/-- The part of the itbit `PlaceOrder` response the wrapper reads:
`response.ID`. -/
structure ItBitOrderResponse where
  ID : String := ""
deriving DecidableEq, Repr

/-- One outbound network call issued by the `ItBit` wrapper. -/
inductive ItBitNetCall where
  | getWallets
  | getTicker (symbol : String)
  | getOrderbook (symbol : String)
  | placeOrder (args : PlaceOrderArgs)
deriving DecidableEq, Repr

/-- The venue REST bindings `ItBit.SubmitOrder` consumes: the result of
`i.GetWallets(url.Values{})` and the response of `i.PlaceOrder` as a
function of its arguments.  Both return a Go `(value, error)` pair. -/
structure ItBitSubmitEnv where
  getWallets : List Wallet × Option GoError
  placeOrder : PlaceOrderArgs → ItBitOrderResponse × Option GoError

namespace ItBit

/-- Embeds the wallet-selection loop of `ItBit.SubmitOrder`: iterate all
wallets and all their balances in order, overwriting `wallet` with the
current wallet's ID whenever the balance's currency equals the base
currency and its available balance is ≥ `amount`; `wallet` starts out as
the empty string. -/
def selectWallet (wallets : List Wallet) (baseCurrency : String) (amount : ℚ) : String :=
  wallets.foldl (fun acc w =>
    w.Balances.foldl (fun acc2 b =>
      if b.Currency = baseCurrency ∧ amount ≤ b.AvailableBalance then w.ID else acc2) acc) ""

/-- The arguments `ItBit.SubmitOrder` passes to `i.PlaceOrder`. -/
def orderArgs (p : CurrencyPair) (side : OrderSide) (orderType : OrderType)
    (amount price : ℚ) (wallet : String) : PlaceOrderArgs :=
  { wallet := wallet, side := side.toGoString, orderType := orderType.toGoString,
    currency := p.firstCurrency, amount := amount, price := price,
    instrument := p.pairString, clientOrderReference := "" }

/-- Embeds `ItBit.SubmitOrder`: enumerate wallets, pick a funding wallet
by `selectWallet`, fail with the `No wallet found...` error when none was
picked, otherwise place the order and build the response: `OrderID` from
`response.ID` when non-empty, `IsOrderPlaced` true exactly when the
placement returned no error.  The second component is the trace of
network calls issued. -/
def SubmitOrder (env : ItBitSubmitEnv) (p : CurrencyPair) (side : OrderSide)
    (orderType : OrderType) (amount price : ℚ) (_clientID : String) :
    (SubmitOrderResponse × Option GoError) × List ItBitNetCall :=
  let submitOrderResponse : SubmitOrderResponse := {}
  let (wallets, werr) := env.getWallets
  match werr with
  | some e => ((submitOrderResponse, some e), [.getWallets])
  | none =>
    let wallet := selectWallet wallets p.firstCurrency amount
    if wallet = "" then
      ((submitOrderResponse, some (.noWalletFound p.firstCurrency amount)), [.getWallets])
    else
      let args := orderArgs p side orderType amount price wallet
      let (response, perr) := env.placeOrder args
      let r1 := if response.ID ≠ "" then
          { submitOrderResponse with OrderID := response.ID } else submitOrderResponse
      let r2 := if perr = none then { r1 with IsOrderPlaced := true } else r1
      ((r2, perr), [.getWallets, .placeOrder args])

end ItBit

/-! ## HUOBIHADAX order submission (`HUOBIHADAX.SubmitOrder`) -/

/-- Embeds the string-backed `SpotNewOrderRequestParamsType`; `empty` is
the Go zero value `""`, the four constants are
`SpotNewOrderRequestType{Buy,Sell}{Market,Limit}`. -/
inductive SpotNewOrderRequestParamsType where
  | buyMarket
  | sellMarket
  | buyLimit
  | sellLimit
  | empty
deriving DecidableEq, Repr

/-- Embeds `SpotNewOrderRequestParams` with Go zero values for the fields
the wrapper does not always set.  `ReqType` embeds the Go field named
`Type` (a Lean keyword). -/
structure SpotNewOrderRequestParams where
  Amount : ℚ
  Source : String
  Symbol : String
  AccountID : Int
  Price : ℚ := 0
  ReqType : SpotNewOrderRequestParamsType := .empty
deriving DecidableEq, Repr

/-- One outbound network call issued by the `HUOBIHADAX` wrapper. -/
inductive HuobiNetCall where
  | getMarketDetailMerged (symbol : String)
  | getDepth (symbol step : String)
  | spotNewOrder (params : SpotNewOrderRequestParams)
deriving DecidableEq, Repr

/-- The venue REST binding `HUOBIHADAX.SubmitOrder` consumes: the
response of `h.SpotNewOrder` (an order id, `int64`) as a function of the
request parameters. -/
structure HuobiSubmitEnv where
  spotNewOrder : SpotNewOrderRequestParams → Int × Option GoError

namespace HUOBIHADAX

/-- Embeds the request construction of `HUOBIHADAX.SubmitOrder`: the base
params (amount, source `"api"`, lower-cased symbol, account id parsed
from `clientID` with the parse error discarded) refined by the
four-way `(side, orderType)` if-chain, which sets `Type` always and
`Price` in the two limit branches; `none` embeds the final `else`
branch. -/
def buildOrderParams (p : CurrencyPair) (side : OrderSide) (orderType : OrderType)
    (amount price : ℚ) (clientID : String) : Option SpotNewOrderRequestParams :=
  let accountID := (goParseInt clientID).1
  let params : SpotNewOrderRequestParams :=
    { Amount := amount, Source := "api", Symbol := goStringToLower p.pairString,
      AccountID := accountID }
  if side = .buy ∧ orderType = .market then
    some { params with ReqType := .buyMarket }
  else if side = .sell ∧ orderType = .market then
    some { params with ReqType := .sellMarket }
  else if side = .buy ∧ orderType = .limit then
    some { params with ReqType := .buyLimit, Price := price }
  else if side = .sell ∧ orderType = .limit then
    some { params with ReqType := .sellLimit, Price := price }
  else
    none

/-- Embeds `HUOBIHADAX.SubmitOrder`: build the request parameters; on the
unsupported-combination branch return `errors.New("Unsupported order type")`
with no network call; otherwise call `h.SpotNewOrder` and build the
response: `OrderID` from the returned id when positive, `IsOrderPlaced`
true exactly when the call returned no error. -/
def SubmitOrder (env : HuobiSubmitEnv) (p : CurrencyPair) (side : OrderSide)
    (orderType : OrderType) (amount price : ℚ) (clientID : String) :
    (SubmitOrderResponse × Option GoError) × List HuobiNetCall :=
  let submitOrderResponse : SubmitOrderResponse := {}
  match buildOrderParams p side orderType amount price clientID with
  | none => ((submitOrderResponse, some (.errorsNew "Unsupported order type")), [])
  | some params =>
    let (response, err) := env.spotNewOrder params
    let r1 := if response > 0 then
        { submitOrderResponse with OrderID := toString response } else submitOrderResponse
    let r2 := if err = none then { r1 with IsOrderPlaced := true } else r1
    ((r2, err), [.spotNewOrder params])

end HUOBIHADAX

/-! ## Market-data cache

The `ticker` and `orderbook` package stores are consumed by the wrappers
but are not among the given source files; they are modelled from the
specification (§3, §4.2). -/

/-- Embeds `ticker.Price`: the canonical ticker snapshot, with Go zero
values as defaults. -/
structure TickerPrice where
  Pair : CurrencyPair := ⟨"", ""⟩
  Last : ℚ := 0
  High : ℚ := 0
  Low : ℚ := 0
  Bid : ℚ := 0
  Ask : ℚ := 0
  Volume : ℚ := 0
deriving DecidableEq, Repr

/-- The cache key: (venue, pair, asset-class). -/
structure SnapshotKey where
  exchangeName : String
  pair : CurrencyPair
  assetType : String
deriving DecidableEq, Repr

/-- Modelled from the spec: the ticker package's keyed snapshot store —
"one live snapshot per key, overwritten in place on refresh". -/
abbrev TickerStore : Type := List (SnapshotKey × TickerPrice)

/-- Lookup of the newest entry for a key in a keyed snapshot store. -/
def storeLookup {α : Type} : List (SnapshotKey × α) → SnapshotKey → Option α
  | [], _ => none
  | (k, v) :: rest, key => if k = key then some v else storeLookup rest key

/-- Modelled from the spec: `ticker.GetTicker(name, p, assetType)` —
"look up the live snapshot" for the key, an error on a cache miss. -/
def tickerGetTicker (store : TickerStore) (name : String) (p : CurrencyPair)
    (assetType : String) : TickerPrice × Option GoError :=
  match storeLookup store ⟨name, p, assetType⟩ with
  | some t => (t, none)
  | none => ({}, some .tickerNotFound)

/-- Modelled from the spec: `ticker.ProcessTicker(name, p, price, assetType)`
— "stores it keyed by (venue, pair, assetClass) — overwriting any prior
value" (the newest entry shadows older ones under `storeLookup`). -/
def tickerProcessTicker (store : TickerStore) (name : String) (p : CurrencyPair)
    (price : TickerPrice) (assetType : String) : TickerStore :=
  (⟨name, p, assetType⟩, price) :: store

/-- Embeds `orderbook.Item`. -/
structure OrderbookItem where
  Amount : ℚ
  Price : ℚ
deriving DecidableEq, Repr

/-- Embeds `orderbook.Base` (the parts the wrappers build). -/
structure OrderbookBase where
  Bids : List OrderbookItem := []
  Asks : List OrderbookItem := []
deriving DecidableEq, Repr

/-- Modelled from the spec: the orderbook package's keyed snapshot store. -/
abbrev OrderbookStore : Type := List (SnapshotKey × OrderbookBase)

/-- Modelled from the spec: `orderbook.GetOrderbook(name, p, assetType)` —
the live snapshot for the key, an error on a cache miss. -/
def orderbookGetOrderbook (store : OrderbookStore) (name : String) (p : CurrencyPair)
    (assetType : String) : OrderbookBase × Option GoError :=
  match storeLookup store ⟨name, p, assetType⟩ with
  | some ob => (ob, none)
  | none => ({}, some .orderbookNotFound)

/-- Modelled from the spec: `orderbook.ProcessOrderbook` — stores the
snapshot keyed by (venue, pair, assetClass), overwriting any prior value. -/
def orderbookProcessOrderbook (store : OrderbookStore) (name : String) (p : CurrencyPair)
    (ob : OrderbookBase) (assetType : String) : OrderbookStore :=
  (⟨name, p, assetType⟩, ob) :: store

/-- Modelled from the spec: `exchange.FormatExchangeCurrency(name, p).String()`.
Venue pair-formatting rules are an explicit non-goal of the spec
("exact numeric/currency-pair formatting rules — these are venue details");
embedded as the canonical concatenated pair string. -/
def formatExchangeCurrency (_name : String) (p : CurrencyPair) : String :=
  p.pairString

/-! ## ItBit market data -/

/-- The part of the itbit `GetTicker` response the wrapper reads. -/
structure ItBitTickerResponse where
  Ask : ℚ := 0
  Bid : ℚ := 0
  LastPrice : ℚ := 0
  High24h : ℚ := 0
  Low24h : ℚ := 0
  Volume24h : ℚ := 0
deriving DecidableEq, Repr

/-- A raw venue order-book payload: each level is the pair of strings
`(data[0], data[1])` = (price string, amount string). -/
structure RawOrderbook where
  Bids : List (String × String) := []
  Asks : List (String × String) := []
deriving DecidableEq, Repr

/-- The venue REST bindings the `ItBit` market-data wrappers consume:
`i.GetTicker(symbol)` and `i.GetOrderbook(symbol)`. -/
structure ItBitMarketEnv where
  getTicker : String → ItBitTickerResponse × Option GoError
  getOrderbook : String → RawOrderbook × Option GoError

namespace ItBit

/-- Embeds `ItBit.UpdateTicker`: fetch the venue ticker, on error return
it; otherwise build the `ticker.Price`, process it into the store and
return the freshly stored value.  Returns ((price, error), new store,
trace of network calls). -/
def UpdateTicker (env : ItBitMarketEnv) (name : String) (store : TickerStore)
    (p : CurrencyPair) (assetType : String) :
    (TickerPrice × Option GoError) × TickerStore × List ItBitNetCall :=
  let symbol := formatExchangeCurrency name p
  let (tick, err) := env.getTicker symbol
  match err with
  | some e => (({}, some e), store, [.getTicker symbol])
  | none =>
    let tickerPrice : TickerPrice :=
      { Pair := p, Ask := tick.Ask, Bid := tick.Bid, Last := tick.LastPrice,
        High := tick.High24h, Low := tick.Low24h, Volume := tick.Volume24h }
    let store2 := tickerProcessTicker store name p tickerPrice assetType
    (tickerGetTicker store2 name p assetType, store2, [.getTicker symbol])

/-- Embeds `ItBit.FetchTicker`: look up the cached snapshot; on a miss
delegate to `UpdateTicker`, on a hit return the cached value with no
network call. -/
def FetchTicker (env : ItBitMarketEnv) (name : String) (store : TickerStore)
    (p : CurrencyPair) (assetType : String) :
    (TickerPrice × Option GoError) × TickerStore × List ItBitNetCall :=
  let (tickerNew, err) := tickerGetTicker store name p assetType
  match err with
  | some _ => UpdateTicker env name store p assetType
  | none => ((tickerNew, none), store, [])

/-- Embeds the per-level conversion of `ItBit.UpdateOrderbook`: parse the
price string `data[0]` and the amount string `data[1]`, logging (and
otherwise ignoring) parse errors, so an unparsable field keeps the Go
zero value `0`. -/
def convertLevel (data : String × String) : OrderbookItem :=
  let (price, _priceErr) := goParseFloat data.1
  let (amount, _amountErr) := goParseFloat data.2
  { Amount := amount, Price := price }

/-- Embeds `ItBit.UpdateOrderbook`: fetch the raw depth payload, on error
return it; otherwise convert every bid and ask level with `convertLevel`,
process the book into the store and return the freshly stored value. -/
def UpdateOrderbook (env : ItBitMarketEnv) (name : String) (store : OrderbookStore)
    (p : CurrencyPair) (assetType : String) :
    (OrderbookBase × Option GoError) × OrderbookStore × List ItBitNetCall :=
  let symbol := formatExchangeCurrency name p
  let (orderbookNew, err) := env.getOrderbook symbol
  match err with
  | some e => (({}, some e), store, [.getOrderbook symbol])
  | none =>
    let orderBook : OrderbookBase :=
      { Bids := orderbookNew.Bids.map convertLevel,
        Asks := orderbookNew.Asks.map convertLevel }
    let store2 := orderbookProcessOrderbook store name p orderBook assetType
    (orderbookGetOrderbook store2 name p assetType, store2, [.getOrderbook symbol])

end ItBit

/-! ## HUOBIHADAX market data -/

/-- The part of the huobihadax `GetMarketDetailMerged` response the
wrapper reads; `Ask` and `Bid` are arrays that may be empty. -/
structure HuobiTickResponse where
  Low : ℚ := 0
  Close : ℚ := 0
  Volume : ℚ := 0
  High : ℚ := 0
  Ask : List ℚ := []
  Bid : List ℚ := []
deriving DecidableEq, Repr

/-- The venue REST binding the `HUOBIHADAX` ticker wrappers consume:
`h.GetMarketDetailMerged(symbol)`. -/
structure HuobiMarketEnv where
  getMarketDetailMerged : String → HuobiTickResponse × Option GoError

namespace HUOBIHADAX

/-- Embeds `HUOBIHADAX.UpdateTicker`: fetch the merged market detail, on
error return it; otherwise build the `ticker.Price` (taking `Ask`/`Bid`
from the first array element only when the array is non-empty), process
it into the store and return the freshly stored value. -/
def UpdateTicker (env : HuobiMarketEnv) (name : String) (store : TickerStore)
    (p : CurrencyPair) (assetType : String) :
    (TickerPrice × Option GoError) × TickerStore × List HuobiNetCall :=
  let symbol := formatExchangeCurrency name p
  let (tick, err) := env.getMarketDetailMerged symbol
  match err with
  | some e => (({}, some e), store, [.getMarketDetailMerged symbol])
  | none =>
    let t0 : TickerPrice :=
      { Pair := p, Low := tick.Low, Last := tick.Close, Volume := tick.Volume,
        High := tick.High }
    let t1 := match tick.Ask with
      | a :: _ => { t0 with Ask := a }
      | [] => t0
    let t2 := match tick.Bid with
      | b :: _ => { t1 with Bid := b }
      | [] => t1
    let store2 := tickerProcessTicker store name p t2 assetType
    (tickerGetTicker store2 name p assetType, store2, [.getMarketDetailMerged symbol])

/-- Embeds `HUOBIHADAX.FetchTicker`: look up the cached snapshot; on a
miss delegate to `UpdateTicker`, on a hit return the cached value with no
network call. -/
def FetchTicker (env : HuobiMarketEnv) (name : String) (store : TickerStore)
    (p : CurrencyPair) (assetType : String) :
    (TickerPrice × Option GoError) × TickerStore × List HuobiNetCall :=
  let (tickerNew, err) := tickerGetTicker store name p assetType
  match err with
  | some _ => UpdateTicker env name store p assetType
  | none => ((tickerNew, none), store, [])

end HUOBIHADAX

/-! ## Stub operations and account info -/

/-- Embeds `exchange.FundHistory` (opaque to the wrappers: both return a
nil slice of it). -/
structure FundHistory where
deriving DecidableEq, Repr

/-- Embeds `exchange.ModifyOrder` (opaque to the wrappers). -/
structure ModifyOrderAction where
deriving DecidableEq, Repr

/-- Embeds `ItBit.GetFundingHistory`: a nil slice and
`common.ErrFunctionNotSupported`; issues no network call. -/
def ItBit.GetFundingHistory :
    (List FundHistory × Option GoError) × List ItBitNetCall :=
  (([], some .errFunctionNotSupported), [])

/-- Embeds `HUOBIHADAX.GetFundingHistory`: a nil slice and
`common.ErrFunctionNotSupported`; issues no network call. -/
def HUOBIHADAX.GetFundingHistory :
    (List FundHistory × Option GoError) × List HuobiNetCall :=
  (([], some .errFunctionNotSupported), [])

/-- Embeds `ItBit.ModifyOrder`: `(0, common.ErrNotYetImplemented)`. -/
def ItBit.ModifyOrder (_orderID : Int) (_action : ModifyOrderAction) :
    (Int × Option GoError) × List ItBitNetCall :=
  ((0, some .errNotYetImplemented), [])

/-- Embeds `HUOBIHADAX.ModifyOrder`: `(0, common.ErrNotYetImplemented)`. -/
def HUOBIHADAX.ModifyOrder (_orderID : Int) (_action : ModifyOrderAction) :
    (Int × Option GoError) × List HuobiNetCall :=
  ((0, some .errNotYetImplemented), [])

/-- Embeds `ItBit.CancelAllOrders`: `common.ErrNotYetImplemented`. -/
def ItBit.CancelAllOrders : Option GoError × List ItBitNetCall :=
  (some .errNotYetImplemented, [])

/-- Embeds `HUOBIHADAX.CancelAllOrders`: `common.ErrNotYetImplemented`. -/
def HUOBIHADAX.CancelAllOrders : Option GoError × List HuobiNetCall :=
  (some .errNotYetImplemented, [])

/-- Embeds `ItBit.GetAccountInfo`: a zero-valued `AccountInfo` with only
`ExchangeName` set to `i.GetName()`, and a nil error; no network call. -/
def ItBit.GetAccountInfo (name : String) :
    (AccountInfo × Option GoError) × List ItBitNetCall :=
  (({ ExchangeName := name }, none), [])

/-- Embeds `HUOBIHADAX.GetAccountInfo`: a zero-valued `AccountInfo` with
only `ExchangeName` set to `h.GetName()`, and a nil error; no network
call. -/
def HUOBIHADAX.GetAccountInfo (name : String) :
    (AccountInfo × Option GoError) × List HuobiNetCall :=
  (({ ExchangeName := name }, none), [])

/-! ## Specification-side predicates and observation helpers -/

/-- The spec's valid submission matrix: `(side, orderKind) ∈
{buy,sell} × {market,limit}`. -/
def validCombo (side : OrderSide) (orderType : OrderType) : Prop :=
  (side = .buy ∨ side = .sell) ∧ (orderType = .market ∨ orderType = .limit)

instance validCombo.decidable (side : OrderSide) (orderType : OrderType) :
    Decidable (validCombo side orderType) := by
  unfold validCombo; infer_instance

/-- Whether a wallet balance qualifies as a funding source for the given
base currency and amount (the condition of the selection loop). -/
def WalletBalance.qualifies (b : WalletBalance) (baseCurrency : String) (amount : ℚ) : Bool :=
  decide (b.Currency = baseCurrency ∧ amount ≤ b.AvailableBalance)

/-- The wallet IDs of all qualifying (wallet, balance) entries, in
enumeration order (a wallet's ID appears once per qualifying balance). -/
def qualifyingIDs (wallets : List Wallet) (baseCurrency : String) (amount : ℚ) : List String :=
  wallets.foldr (fun w acc =>
    (w.Balances.filter (fun b => b.qualifies baseCurrency amount)).map (fun _ => w.ID)
      ++ acc) []

/-- The first `placeOrder` call in a network trace, if any. -/
def placedOrderArgs : List ItBitNetCall → Option PlaceOrderArgs
  | [] => none
  | .placeOrder a :: _ => some a
  | _ :: rest => placedOrderArgs rest

/-- The parameters of the first `spotNewOrder` call in a network trace,
if any. -/
def huobiPlacedParams : List HuobiNetCall → Option SpotNewOrderRequestParams
  | [] => none
  | .spotNewOrder q :: _ => some q
  | _ :: rest => huobiPlacedParams rest

/-- A concrete ItBit environment for witnesses: wallet enumeration
succeeds with `ws`, placement constantly answers `(resp, perr)`. -/
def testItBitEnv (ws : List Wallet) (resp : ItBitOrderResponse)
    (perr : Option GoError) : ItBitSubmitEnv :=
  { getWallets := (ws, none), placeOrder := fun _ => (resp, perr) }

/-- A concrete HUOBIHADAX environment for witnesses: placement constantly
answers `(resp, perr)`. -/
def testHuobiEnv (resp : Int) (perr : Option GoError) : HuobiSubmitEnv :=
  ⟨fun _ => (resp, perr)⟩

/-- A concrete ItBit market-data environment for witnesses: the venue
constantly answers `tick` resp. `raw`, with no error. -/
def testItBitMarketEnv (tick : ItBitTickerResponse) (raw : RawOrderbook) :
    ItBitMarketEnv :=
  { getTicker := fun _ => (tick, none), getOrderbook := fun _ => (raw, none) }

/-- A concrete HUOBIHADAX market-data environment for witnesses: the
venue constantly answers `tick` with no error. -/
def testHuobiMarketEnv (tick : HuobiTickResponse) : HuobiMarketEnv :=
  ⟨fun _ => (tick, none)⟩

/-! ## Shared lemmas -/

lemma mapConst_getLastD {α : Type} (l : List α) (x d : String) :
    (l.map (fun _ => x)).getLastD d = if l.isEmpty then d else x := by
  induction l generalizing d with
  | nil => rfl
  | cons a l ih =>
    rw [List.map_cons, List.getLastD_cons, ih]
    cases l <;> rfl

lemma innerFold_eq (wID c : String) (a : ℚ) (bs : List WalletBalance) (acc : String) :
    bs.foldl (fun acc2 b =>
        if b.Currency = c ∧ a ≤ b.AvailableBalance then wID else acc2) acc
      = if (bs.filter (fun b => b.qualifies c a)).isEmpty then acc else wID := by
  induction bs generalizing acc with
  | nil => rfl
  | cons b bs ih =>
    by_cases hb : b.Currency = c ∧ a ≤ b.AvailableBalance
    · simp [List.foldl_cons, List.filter_cons, WalletBalance.qualifies, hb, ih]
    · simp [List.foldl_cons, List.filter_cons, WalletBalance.qualifies, hb, ih]

lemma getLastD_append (xs ys : List String) (d : String) :
    (xs ++ ys).getLastD d = ys.getLastD (xs.getLastD d) := by
  induction xs generalizing d with
  | nil => rfl
  | cons x xs ih =>
    rw [List.cons_append, List.getLastD_cons, ih, List.getLastD_cons]

lemma selectWallet_foldl_eq (c : String) (a : ℚ) (wallets : List Wallet) (acc : String) :
    wallets.foldl (fun acc w =>
        w.Balances.foldl (fun acc2 b =>
          if b.Currency = c ∧ a ≤ b.AvailableBalance then w.ID else acc2) acc) acc
      = (qualifyingIDs wallets c a).getLastD acc := by
  induction wallets generalizing acc with
  | nil => rfl
  | cons w ws ih =>
    have hq : qualifyingIDs (w :: ws) c a
        = (w.Balances.filter (fun b => b.qualifies c a)).map (fun _ => w.ID)
          ++ qualifyingIDs ws c a := rfl
    rw [List.foldl_cons, innerFold_eq, ih, hq, getLastD_append, mapConst_getLastD]

/-- The Go selection loop picks the wallet of the LAST qualifying
(wallet, balance) entry: it equals the last element of `qualifyingIDs`
(or `""` when no entry qualifies). -/
lemma selectWallet_eq (wallets : List Wallet) (c : String) (a : ℚ) :
    ItBit.selectWallet wallets c a = (qualifyingIDs wallets c a).getLastD "" :=
  selectWallet_foldl_eq c a wallets ""

lemma qualifyingIDs_eq_nil {ws : List Wallet} {c : String} {a : ℚ}
    (hq : ∀ w ∈ ws, ∀ b ∈ w.Balances, ¬ (b.Currency = c ∧ a ≤ b.AvailableBalance)) :
    qualifyingIDs ws c a = [] := by
  induction ws with
  | nil => rfl
  | cons w ws ih =>
    have hfilter : w.Balances.filter (fun b => b.qualifies c a) = [] := by
      rw [List.filter_eq_nil_iff]
      intro b hb
      simpa [WalletBalance.qualifies] using hq w (List.mem_cons_self w ws) b hb
    have hrest : qualifyingIDs ws c a = [] :=
      ih fun w' hw' => hq w' (List.mem_cons_of_mem w hw')
    show (w.Balances.filter (fun b => b.qualifies c a)).map (fun _ => w.ID)
        ++ qualifyingIDs ws c a = []
    rw [hfilter, hrest]
    rfl

lemma goParseInt_fst_of_isSome {s : String} (h : (goParseInt s).2.isSome) :
    (goParseInt s).1 = 0 := by
  unfold goParseInt at *
  cases hs : goIntOfString s with
  | none => simp [hs]
  | some n => rw [hs] at h; simp at h

/-- Classification of the HUOBIHADAX request builder on its success
branches. -/
lemma buildOrderParams_spec {p : CurrencyPair} {side : OrderSide} {orderType : OrderType}
    {amount price : ℚ} {clientID : String} {params : SpotNewOrderRequestParams}
    (hb : HUOBIHADAX.buildOrderParams p side orderType amount price clientID = some params) :
    validCombo side orderType
      ∧ params.AccountID = (goParseInt clientID).1
      ∧ params.Price = (if orderType = .limit then price else 0)
      ∧ params.Amount = amount
      ∧ params.Source = "api"
      ∧ params.Symbol = goStringToLower p.pairString := by
  unfold HUOBIHADAX.buildOrderParams at hb
  split_ifs at hb with h1 h2 h3 h4
  · obtain ⟨hs, ht⟩ := h1
    cases hb
    subst hs ht
    refine ⟨⟨Or.inl rfl, Or.inl rfl⟩, rfl, ?_, rfl, rfl, rfl⟩
    simp
  · obtain ⟨hs, ht⟩ := h2
    cases hb
    subst hs ht
    refine ⟨⟨Or.inr rfl, Or.inl rfl⟩, rfl, ?_, rfl, rfl, rfl⟩
    simp
  · obtain ⟨hs, ht⟩ := h3
    cases hb
    subst hs ht
    exact ⟨⟨Or.inl rfl, Or.inr rfl⟩, rfl, by simp, rfl, rfl, rfl⟩
  · obtain ⟨hs, ht⟩ := h4
    cases hb
    subst hs ht
    exact ⟨⟨Or.inr rfl, Or.inr rfl⟩, rfl, by simp, rfl, rfl, rfl⟩

lemma buildOrderParams_exists_of_validCombo {side : OrderSide} {orderType : OrderType}
    (h : validCombo side orderType) (p : CurrencyPair) (amount price : ℚ)
    (clientID : String) :
    ∃ params, HUOBIHADAX.buildOrderParams p side orderType amount price clientID
      = some params := by
  obtain ⟨hs | hs, ht | ht⟩ := h <;> subst hs <;> subst ht <;> exact ⟨_, rfl⟩

lemma buildOrderParams_none_of_not_validCombo {side : OrderSide} {orderType : OrderType}
    (h : ¬ validCombo side orderType) (p : CurrencyPair) (amount price : ℚ)
    (clientID : String) :
    HUOBIHADAX.buildOrderParams p side orderType amount price clientID = none := by
  unfold HUOBIHADAX.buildOrderParams
  unfold validCombo at h
  rw [if_neg, if_neg, if_neg, if_neg] <;> tauto

/-- The run of `HUOBIHADAX.SubmitOrder` past a successful parameter
build: one placement network call, the venue error surfaced unchanged,
the flag true exactly on no error, the identifier from the response
exactly when positive. -/
lemma huobi_submit_run {env : HuobiSubmitEnv} {p : CurrencyPair} {side : OrderSide}
    {orderType : OrderType} {amount price : ℚ} {clientID : String}
    {params : SpotNewOrderRequestParams}
    (hb : HUOBIHADAX.buildOrderParams p side orderType amount price clientID = some params) :
    (HUOBIHADAX.SubmitOrder env p side orderType amount price clientID).2
        = [HuobiNetCall.spotNewOrder params]
      ∧ (HUOBIHADAX.SubmitOrder env p side orderType amount price clientID).1.2
        = (env.spotNewOrder params).2
      ∧ (HUOBIHADAX.SubmitOrder env p side orderType amount price clientID).1.1.IsOrderPlaced
        = decide ((env.spotNewOrder params).2 = none)
      ∧ (HUOBIHADAX.SubmitOrder env p side orderType amount price clientID).1.1.OrderID
        = (if (env.spotNewOrder params).1 > 0 then toString (env.spotNewOrder params).1
            else "") := by
  unfold HUOBIHADAX.SubmitOrder
  rw [hb]
  rcases hs : env.spotNewOrder params with ⟨resp, perr⟩
  cases perr with
  | none =>
    by_cases hresp : resp > 0
    · simp [hs, if_pos hresp]
    · simp [hs, if_neg hresp]
  | some e =>
    by_cases hresp : resp > 0
    · simp [hs, if_pos hresp]
    · simp [hs, if_neg hresp]

/-- The run of `ItBit.SubmitOrder` past a successful wallet enumeration
that selected a non-empty wallet id: the trace is wallet enumeration then
the placement call, the venue error surfaced unchanged, the flag true
exactly on no error, the identifier from the response exactly when
non-empty. -/
lemma itbit_submit_run {env : ItBitSubmitEnv} {p : CurrencyPair} {side : OrderSide}
    {orderType : OrderType} {amount price : ℚ} {clientID : String}
    {ws : List Wallet} {args : PlaceOrderArgs}
    (hw : env.getWallets = (ws, none))
    (hne : ItBit.selectWallet ws p.firstCurrency amount ≠ "")
    (ha : args = ItBit.orderArgs p side orderType amount price
      (ItBit.selectWallet ws p.firstCurrency amount)) :
    (ItBit.SubmitOrder env p side orderType amount price clientID).2
        = [ItBitNetCall.getWallets, ItBitNetCall.placeOrder args]
      ∧ (ItBit.SubmitOrder env p side orderType amount price clientID).1.2
        = (env.placeOrder args).2
      ∧ (ItBit.SubmitOrder env p side orderType amount price clientID).1.1.IsOrderPlaced
        = decide ((env.placeOrder args).2 = none)
      ∧ (ItBit.SubmitOrder env p side orderType amount price clientID).1.1.OrderID
        = (if (env.placeOrder args).1.ID ≠ "" then (env.placeOrder args).1.ID else "") := by
  subst ha
  unfold ItBit.SubmitOrder
  rw [hw]
  rcases hp : env.placeOrder (ItBit.orderArgs p side orderType amount price
    (ItBit.selectWallet ws p.firstCurrency amount)) with ⟨resp, perr⟩
  cases perr <;> by_cases hid : resp.ID ≠ "" <;> simp_all [if_neg hne]

/-! ## Claims -/

/-- C9: `GetAccountInfo` on both adapters always succeeds: nil error, an
`AccountInfo` whose `ExchangeName` is the adapter's name and whose every
other field is the zero value, and no network call is issued; in
particular no error of any kind (NotYetImplemented included) is ever
returned. -/
theorem C9_getAccountInfo_always_succeeds (name : String) :
    ItBit.GetAccountInfo name
        = (({ ExchangeName := name, Currencies := [] }, none), [])
      ∧ HUOBIHADAX.GetAccountInfo name
        = (({ ExchangeName := name, Currencies := [] }, none), []) :=
  ⟨rfl, rfl⟩

/-- C7 fails as stated: `GetFundingHistory` on the ItBit adapter (and
identically on HUOBIHADAX) returns `common.ErrFunctionNotSupported` —
the Unsupported kind — which is a different kind than NotYetImplemented. -/
theorem C7_counterexample :
    ItBit.GetFundingHistory.1.2 = some GoError.errFunctionNotSupported
      ∧ GoError.errFunctionNotSupported ≠ GoError.errNotYetImplemented :=
  ⟨rfl, by decide⟩

/-- C7 amended: `ModifyOrder` and `CancelAllOrders` on both adapters
return the NotYetImplemented kind and never a null/empty success, while
`GetFundingHistory` on both adapters returns the Unsupported kind
(`common.ErrFunctionNotSupported`) — likewise never a success, but not
the NotYetImplemented kind the claim states. -/
theorem C7_amended_stub_error_kinds (orderID : Int) (action : ModifyOrderAction) :
    (ItBit.ModifyOrder orderID action).1.2 = some GoError.errNotYetImplemented
      ∧ (HUOBIHADAX.ModifyOrder orderID action).1.2 = some GoError.errNotYetImplemented
      ∧ ItBit.CancelAllOrders.1 = some GoError.errNotYetImplemented
      ∧ HUOBIHADAX.CancelAllOrders.1 = some GoError.errNotYetImplemented
      ∧ ItBit.GetFundingHistory.1.2 = some GoError.errFunctionNotSupported
      ∧ HUOBIHADAX.GetFundingHistory.1.2 = some GoError.errFunctionNotSupported :=
  ⟨rfl, rfl, rfl, rfl, rfl, rfl⟩

/-- C1 fails as stated for the ItBit adapter: with side `"weird"`
(outside {buy, sell}) the submission returns no validation error at all
and performs both the wallet-enumeration network call and the
order-placement network call. -/
theorem C1_counterexample :
    (ItBit.SubmitOrder
        { getWallets := ([⟨"w1", [⟨"BTC", 2⟩]⟩], none),
          placeOrder := fun _ => ({ ID := "ord1" }, none) }
        ⟨"BTC", "USD"⟩ (.otherSide "weird") .market 1 5 "").1.2 = none
      ∧ (ItBit.SubmitOrder
          { getWallets := ([⟨"w1", [⟨"BTC", 2⟩]⟩], none),
            placeOrder := fun _ => ({ ID := "ord1" }, none) }
          ⟨"BTC", "USD"⟩ (.otherSide "weird") .market 1 5 "").2.length = 2 := by
  constructor <;> rfl

/-- C1 amended: `HUOBIHADAX.SubmitOrder` does fail with the validation
error `errors.New("Unsupported order type")` and issues no network call
for every (side, orderKind) pair outside {buy,sell} × {market,limit};
`ItBit.SubmitOrder` however performs no such validation: for every input
its first action is the wallet-enumeration network call, and no
validation error is produced for invalid combinations. -/
theorem C1_amended_validation (henv : HuobiSubmitEnv) (ienv : ItBitSubmitEnv)
    (p : CurrencyPair) (side : OrderSide) (orderType : OrderType)
    (amount price : ℚ) (clientID : String)
    (h : ¬ validCombo side orderType) :
    HUOBIHADAX.SubmitOrder henv p side orderType amount price clientID
        = (({ OrderID := "", IsOrderPlaced := false },
            some (GoError.errorsNew "Unsupported order type")), [])
      ∧ (ItBit.SubmitOrder ienv p side orderType amount price clientID).2.head?
        = some ItBitNetCall.getWallets := by
  constructor
  · unfold HUOBIHADAX.SubmitOrder
    rw [buildOrderParams_none_of_not_validCombo h]
  · unfold ItBit.SubmitOrder
    rcases hw : ienv.getWallets with ⟨ws, werr⟩
    cases werr with
    | none =>
      by_cases hsel : ItBit.selectWallet ws p.firstCurrency amount = ""
      · simp [hsel]
      · rcases hp : ienv.placeOrder (ItBit.orderArgs p side orderType amount price
          (ItBit.selectWallet ws p.firstCurrency amount)) with ⟨resp, perr⟩
        simp [hsel, hp]
    | some e => simp

/-- Closed witness for the amended C1 at a concrete invalid combination. -/
theorem C1_amended_validation_witness :
    HUOBIHADAX.SubmitOrder ⟨fun _ => (7, none)⟩ ⟨"BTC", "USD"⟩
          (.otherSide "weird") .limit 1 5 "42"
        = (({ OrderID := "", IsOrderPlaced := false },
            some (GoError.errorsNew "Unsupported order type")), [])
      ∧ (ItBit.SubmitOrder
          { getWallets := ([⟨"w1", [⟨"BTC", 2⟩]⟩], none),
            placeOrder := fun _ => ({ ID := "ord1" }, none) }
          ⟨"BTC", "USD"⟩ (.otherSide "weird") .limit 1 5 "42").2.head?
        = some ItBitNetCall.getWallets :=
  C1_amended_validation ⟨fun _ => (7, none)⟩
    { getWallets := ([⟨"w1", [⟨"BTC", 2⟩]⟩], none),
      placeOrder := fun _ => ({ ID := "ord1" }, none) }
    ⟨"BTC", "USD"⟩ (.otherSide "weird") .limit 1 5 "42" (by decide)

/-- C4: when no enumerated funding source carries the pair's base
currency with available balance ≥ amount, `ItBit.SubmitOrder` fails with
the insufficient-funds error naming exactly that currency and that amount
(the embedding of `fmt.Errorf("No wallet found with currency: %s with
amount >= %v", ...)`), and the network trace is exactly the wallet
enumeration — no order-placement call is made. -/
theorem C4_insufficient_funds (env : ItBitSubmitEnv) (p : CurrencyPair)
    (side : OrderSide) (orderType : OrderType) (amount price : ℚ) (clientID : String)
    (ws : List Wallet) (hw : env.getWallets = (ws, none))
    (hq : ∀ w ∈ ws, ∀ b ∈ w.Balances,
      ¬ (b.Currency = p.firstCurrency ∧ amount ≤ b.AvailableBalance)) :
    ItBit.SubmitOrder env p side orderType amount price clientID
      = (({ OrderID := "", IsOrderPlaced := false },
          some (GoError.noWalletFound p.firstCurrency amount)),
         [ItBitNetCall.getWallets]) := by
  have hsel : ItBit.selectWallet ws p.firstCurrency amount = "" := by
    rw [selectWallet_eq, qualifyingIDs_eq_nil hq]
    rfl
  unfold ItBit.SubmitOrder
  rw [hw]
  simp [hsel]

/-- Closed witness for C4: the spec's own example — one wallet holding
0.5 BTC against a buy order for 1.0 BTC. -/
theorem C4_insufficient_funds_witness :
    ItBit.SubmitOrder
        { getWallets := ([⟨"w1", [⟨"BTC", 1/2⟩]⟩], none),
          placeOrder := fun _ => ({ ID := "ord1" }, none) }
        ⟨"BTC", "USD"⟩ .buy .market 1 5 ""
      = (({ OrderID := "", IsOrderPlaced := false },
          some (GoError.noWalletFound "BTC" 1)), [ItBitNetCall.getWallets]) :=
  C4_insufficient_funds
    { getWallets := ([⟨"w1", [⟨"BTC", 1/2⟩]⟩], none),
      placeOrder := fun _ => ({ ID := "ord1" }, none) }
    ⟨"BTC", "USD"⟩ .buy .market 1 5 "" [⟨"w1", [⟨"BTC", 1/2⟩]⟩] rfl (by
      intro w hw b hb
      fin_cases hw
      fin_cases hb
      rintro ⟨-, habs⟩
      norm_num at habs)

/-- C3 fails as stated: with two qualifying funding sources `w1` (2 BTC)
and `w2` (3 BTC) for a 1 BTC order, the placement call uses `w2` — the
LAST qualifying source — while the first qualifying one is `w1`. -/
theorem C3_counterexample :
    (placedOrderArgs (ItBit.SubmitOrder
        { getWallets := ([⟨"w1", [⟨"BTC", 2⟩]⟩, ⟨"w2", [⟨"BTC", 3⟩]⟩], none),
          placeOrder := fun _ => ({ ID := "ord1" }, none) }
        ⟨"BTC", "USD"⟩ .buy .limit 1 5 "").2).map (fun a => a.wallet) = some "w2"
      ∧ (qualifyingIDs [⟨"w1", [⟨"BTC", 2⟩]⟩, ⟨"w2", [⟨"BTC", 3⟩]⟩] "BTC" 1).head?
        = some "w1"
      ∧ ("w2" : String) ≠ "w1" :=
  ⟨rfl, rfl, by decide⟩

/-- C3 amended: when wallet enumeration succeeds, `ItBit.SubmitOrder`
selects the LAST enumerated qualifying funding source (the selection
loop has no early exit, so later qualifying entries overwrite earlier
ones); the placement call uses exactly that source's wallet ID. -/
theorem C3_amended_last_qualifying (env : ItBitSubmitEnv) (p : CurrencyPair)
    (side : OrderSide) (orderType : OrderType) (amount price : ℚ) (clientID : String)
    (ws : List Wallet) (hw : env.getWallets = (ws, none))
    (hne : (qualifyingIDs ws p.firstCurrency amount).getLastD "" ≠ "") :
    (placedOrderArgs (ItBit.SubmitOrder env p side orderType amount price clientID).2).map
        (fun a => a.wallet)
      = some ((qualifyingIDs ws p.firstCurrency amount).getLastD "") := by
  have hsel : ItBit.selectWallet ws p.firstCurrency amount
      = (qualifyingIDs ws p.firstCurrency amount).getLastD "" :=
    selectWallet_eq ws p.firstCurrency amount
  have hne' : ItBit.selectWallet ws p.firstCurrency amount ≠ "" := by
    rw [hsel]; exact hne
  obtain ⟨htrace, -, -, -⟩ :=
    @itbit_submit_run env p side orderType amount price clientID ws _ hw hne' rfl
  rw [htrace]
  simp [placedOrderArgs, ItBit.orderArgs, hsel]

/-- Closed witness for the amended C3 at the two-qualifying-wallet
input: the last qualifying source `w2` is the one used. -/
theorem C3_amended_last_qualifying_witness :
    (placedOrderArgs (ItBit.SubmitOrder
        { getWallets := ([⟨"w1", [⟨"BTC", 2⟩]⟩, ⟨"w2", [⟨"BTC", 3⟩]⟩], none),
          placeOrder := fun _ => ({ ID := "ord1" }, none) }
        ⟨"BTC", "USD"⟩ .buy .limit 1 5 "").2).map (fun a => a.wallet)
      = some ((qualifyingIDs [⟨"w1", [⟨"BTC", 2⟩]⟩, ⟨"w2", [⟨"BTC", 3⟩]⟩]
          "BTC" 1).getLastD "") :=
  C3_amended_last_qualifying
    { getWallets := ([⟨"w1", [⟨"BTC", 2⟩]⟩, ⟨"w2", [⟨"BTC", 3⟩]⟩], none),
      placeOrder := fun _ => ({ ID := "ord1" }, none) }
    ⟨"BTC", "USD"⟩ .buy .limit 1 5 ""
    [⟨"w1", [⟨"BTC", 2⟩]⟩, ⟨"w2", [⟨"BTC", 3⟩]⟩] rfl (by decide)

/-- C8 fails as stated: for an ItBit MARKET order with price 42, the
request passed to the venue placement call still carries price 42 — the
price is not omitted for market orders on this adapter. -/
theorem C8_counterexample :
    (placedOrderArgs (ItBit.SubmitOrder
        { getWallets := ([⟨"w1", [⟨"BTC", 2⟩]⟩], none),
          placeOrder := fun _ => ({ ID := "ord1" }, none) }
        ⟨"BTC", "USD"⟩ .buy .market 1 42 "").2).map (fun a => a.price) = some 42
      ∧ (42 : ℚ) ≠ 0 :=
  ⟨rfl, by norm_num⟩

/-- C8 amended: `HUOBIHADAX.SubmitOrder` attaches the caller's price to
the venue-native request exactly when the order kind is limit (market
requests keep the zero price), while `ItBit.SubmitOrder` passes the
caller's price to the placement call for EVERY order kind, market
included. -/
theorem C8_amended_price_attachment (p : CurrencyPair) (side : OrderSide)
    (orderType : OrderType) (amount price : ℚ) (clientID : String)
    (params : SpotNewOrderRequestParams)
    (hb : HUOBIHADAX.buildOrderParams p side orderType amount price clientID = some params)
    (ienv : ItBitSubmitEnv) (ws : List Wallet) (hw : ienv.getWallets = (ws, none))
    (hne : ItBit.selectWallet ws p.firstCurrency amount ≠ "") :
    params.Price = (if orderType = .limit then price else 0)
      ∧ (placedOrderArgs (ItBit.SubmitOrder ienv p side orderType amount price clientID).2).map
          (fun a => a.price) = some price := by
  refine ⟨(buildOrderParams_spec hb).2.2.1, ?_⟩
  obtain ⟨htrace, -, -, -⟩ :=
    @itbit_submit_run ienv p side orderType amount price clientID ws _ hw hne rfl
  rw [htrace]
  simp [placedOrderArgs, ItBit.orderArgs]

/-- Closed witness for the amended C8: a HUOBIHADAX sell-limit request at
price 9 carries Price 9, and an ItBit market order still passes price 9
to placement. -/
theorem C8_amended_price_attachment_witness :
    ({ Amount := 1, Source := "api", Symbol := "btcusd", AccountID := 0,
        Price := 9, ReqType := .sellLimit } : SpotNewOrderRequestParams).Price
        = (if OrderType.limit = OrderType.limit then (9 : ℚ) else 0)
      ∧ (placedOrderArgs (ItBit.SubmitOrder
          { getWallets := ([⟨"w1", [⟨"BTC", 2⟩]⟩], none),
            placeOrder := fun _ => ({ ID := "ord1" }, none) }
          ⟨"BTC", "USD"⟩ .sell .limit 1 9 "").2).map (fun a => a.price) = some 9 :=
  C8_amended_price_attachment ⟨"BTC", "USD"⟩ .sell .limit 1 9 ""
    { Amount := 1, Source := "api", Symbol := "btcusd", AccountID := 0,
      Price := 9, ReqType := .sellLimit } (by decide)
    { getWallets := ([⟨"w1", [⟨"BTC", 2⟩]⟩], none),
      placeOrder := fun _ => ({ ID := "ord1" }, none) }
    [⟨"w1", [⟨"BTC", 2⟩]⟩] rfl (by decide)

/-- C5: on every run reaching the venue placement call (on either
adapter), the order-placed flag is true exactly when the placement call
returned no error; the order identifier is copied from the venue
response independently of that error; consequently a non-empty returned
identifier together with a placement error yields the flag false. -/
theorem C5_flag_iff_no_placement_error (henv : HuobiSubmitEnv) (p : CurrencyPair)
    (side : OrderSide) (orderType : OrderType) (amount price : ℚ) (clientID : String)
    (params : SpotNewOrderRequestParams)
    (hb : HUOBIHADAX.buildOrderParams p side orderType amount price clientID = some params)
    (ienv : ItBitSubmitEnv) (ws : List Wallet) (args : PlaceOrderArgs)
    (hw : ienv.getWallets = (ws, none))
    (hne : ItBit.selectWallet ws p.firstCurrency amount ≠ "")
    (ha : args = ItBit.orderArgs p side orderType amount price
      (ItBit.selectWallet ws p.firstCurrency amount)) :
    ((HUOBIHADAX.SubmitOrder henv p side orderType amount price clientID).1.1.IsOrderPlaced
        = decide ((henv.spotNewOrder params).2 = none)
      ∧ (HUOBIHADAX.SubmitOrder henv p side orderType amount price clientID).1.1.OrderID
        = (if (henv.spotNewOrder params).1 > 0 then toString (henv.spotNewOrder params).1
            else "")
      ∧ ((henv.spotNewOrder params).2 ≠ none →
          (HUOBIHADAX.SubmitOrder henv p side orderType amount price
            clientID).1.1.IsOrderPlaced = false))
    ∧ ((ItBit.SubmitOrder ienv p side orderType amount price clientID).1.1.IsOrderPlaced
        = decide ((ienv.placeOrder args).2 = none)
      ∧ (ItBit.SubmitOrder ienv p side orderType amount price clientID).1.1.OrderID
        = (if (ienv.placeOrder args).1.ID ≠ "" then (ienv.placeOrder args).1.ID else "")
      ∧ ((ienv.placeOrder args).2 ≠ none →
          (ItBit.SubmitOrder ienv p side orderType amount price
            clientID).1.1.IsOrderPlaced = false)) := by
  obtain ⟨-, -, hflagH, hidH⟩ :=
    @huobi_submit_run henv p side orderType amount price clientID params hb
  obtain ⟨-, -, hflagI, hidI⟩ :=
    @itbit_submit_run ienv p side orderType amount price clientID ws args hw hne ha
  refine ⟨⟨hflagH, hidH, ?_⟩, ⟨hflagI, hidI, ?_⟩⟩
  · intro hcase
    rw [hflagH, decide_eq_false hcase]
  · intro hcase
    rw [hflagI, decide_eq_false hcase]

/-- Closed witness for C5: both venues return a NON-EMPTY identifier
together with a placement error; the flag is false on both while the
identifier is still carried in the result. -/
theorem C5_flag_iff_no_placement_error_witness :
    ((HUOBIHADAX.SubmitOrder (testHuobiEnv 7 (some (.venue "boom"))) ⟨"BTC", "USD"⟩
          .buy .limit 1 5 "9").1.1.IsOrderPlaced
        = decide (((testHuobiEnv 7 (some (.venue "boom"))).spotNewOrder
          { Amount := 1, Source := "api", Symbol := "btcusd", AccountID := 9,
            Price := 5, ReqType := .buyLimit }).2 = none)
      ∧ (HUOBIHADAX.SubmitOrder (testHuobiEnv 7 (some (.venue "boom"))) ⟨"BTC", "USD"⟩
          .buy .limit 1 5 "9").1.1.OrderID
        = (if ((testHuobiEnv 7 (some (.venue "boom"))).spotNewOrder
            { Amount := 1, Source := "api", Symbol := "btcusd", AccountID := 9,
              Price := 5, ReqType := .buyLimit }).1 > 0 then
            toString ((testHuobiEnv 7 (some (.venue "boom"))).spotNewOrder
              { Amount := 1, Source := "api", Symbol := "btcusd", AccountID := 9,
                Price := 5, ReqType := .buyLimit }).1
           else "")
      ∧ (((testHuobiEnv 7 (some (.venue "boom"))).spotNewOrder
            { Amount := 1, Source := "api", Symbol := "btcusd", AccountID := 9,
              Price := 5, ReqType := .buyLimit }).2 ≠ none →
          (HUOBIHADAX.SubmitOrder (testHuobiEnv 7 (some (.venue "boom")))
            ⟨"BTC", "USD"⟩ .buy .limit 1 5 "9").1.1.IsOrderPlaced = false))
    ∧ ((ItBit.SubmitOrder
          (testItBitEnv [⟨"w1", [⟨"BTC", 2⟩]⟩] ⟨"oops"⟩ (some (.venue "bad")))
          ⟨"BTC", "USD"⟩ .buy .limit 1 5 "9").1.1.IsOrderPlaced
        = decide (((testItBitEnv [⟨"w1", [⟨"BTC", 2⟩]⟩] ⟨"oops"⟩
            (some (.venue "bad"))).placeOrder
          (ItBit.orderArgs ⟨"BTC", "USD"⟩ .buy .limit 1 5
            (ItBit.selectWallet [⟨"w1", [⟨"BTC", 2⟩]⟩] "BTC" 1))).2 = none)
      ∧ (ItBit.SubmitOrder
          (testItBitEnv [⟨"w1", [⟨"BTC", 2⟩]⟩] ⟨"oops"⟩ (some (.venue "bad")))
          ⟨"BTC", "USD"⟩ .buy .limit 1 5 "9").1.1.OrderID
        = (if ((testItBitEnv [⟨"w1", [⟨"BTC", 2⟩]⟩] ⟨"oops"⟩
              (some (.venue "bad"))).placeOrder
            (ItBit.orderArgs ⟨"BTC", "USD"⟩ .buy .limit 1 5
              (ItBit.selectWallet [⟨"w1", [⟨"BTC", 2⟩]⟩] "BTC" 1))).1.ID ≠ "" then
            ((testItBitEnv [⟨"w1", [⟨"BTC", 2⟩]⟩] ⟨"oops"⟩
              (some (.venue "bad"))).placeOrder
              (ItBit.orderArgs ⟨"BTC", "USD"⟩ .buy .limit 1 5
                (ItBit.selectWallet [⟨"w1", [⟨"BTC", 2⟩]⟩] "BTC" 1))).1.ID
           else "")
      ∧ (((testItBitEnv [⟨"w1", [⟨"BTC", 2⟩]⟩] ⟨"oops"⟩
            (some (.venue "bad"))).placeOrder
          (ItBit.orderArgs ⟨"BTC", "USD"⟩ .buy .limit 1 5
            (ItBit.selectWallet [⟨"w1", [⟨"BTC", 2⟩]⟩] "BTC" 1))).2 ≠ none →
          (ItBit.SubmitOrder
            (testItBitEnv [⟨"w1", [⟨"BTC", 2⟩]⟩] ⟨"oops"⟩ (some (.venue "bad")))
            ⟨"BTC", "USD"⟩ .buy .limit 1 5 "9").1.1.IsOrderPlaced = false)) :=
  C5_flag_iff_no_placement_error (testHuobiEnv 7 (some (.venue "boom"))) ⟨"BTC", "USD"⟩
    .buy .limit 1 5 "9"
    { Amount := 1, Source := "api", Symbol := "btcusd", AccountID := 9,
      Price := 5, ReqType := .buyLimit } (by decide)
    (testItBitEnv [⟨"w1", [⟨"BTC", 2⟩]⟩] ⟨"oops"⟩ (some (.venue "bad")))
    [⟨"w1", [⟨"BTC", 2⟩]⟩]
    (ItBit.orderArgs ⟨"BTC", "USD"⟩ .buy .limit 1 5
      (ItBit.selectWallet [⟨"w1", [⟨"BTC", 2⟩]⟩] "BTC" 1))
    rfl (by decide) rfl

/-- C10: `HUOBIHADAX.SubmitOrder` discards the clientID parse error: for
every clientID that fails integer parsing, the whole run (result and
network trace) is identical to the run with clientID `"0"` — the parse
failure is unobservable — and for every valid (side, orderKind)
combination the request proceeds to the venue placement call with
`AccountID = 0`. -/
theorem C10_clientID_parse_error_discarded (env : HuobiSubmitEnv) (p : CurrencyPair)
    (side : OrderSide) (orderType : OrderType) (amount price : ℚ) (clientID : String)
    (hp : (goParseInt clientID).2.isSome) (hv : validCombo side orderType) :
    HUOBIHADAX.SubmitOrder env p side orderType amount price clientID
        = HUOBIHADAX.SubmitOrder env p side orderType amount price "0"
      ∧ (huobiPlacedParams
          (HUOBIHADAX.SubmitOrder env p side orderType amount price clientID).2).map
          (fun q => q.AccountID) = some 0 := by
  have h0 : (goParseInt clientID).1 = 0 := goParseInt_fst_of_isSome hp
  have hbuild : HUOBIHADAX.buildOrderParams p side orderType amount price clientID
      = HUOBIHADAX.buildOrderParams p side orderType amount price "0" := by
    unfold HUOBIHADAX.buildOrderParams
    rw [h0]
    rfl
  constructor
  · unfold HUOBIHADAX.SubmitOrder
    rw [hbuild]
  · obtain ⟨params, hsome⟩ :=
      buildOrderParams_exists_of_validCombo hv p amount price clientID
    obtain ⟨htrace, -, -, -⟩ :=
      @huobi_submit_run env p side orderType amount price clientID params hsome
    rw [htrace]
    have hacc : params.AccountID = 0 := by
      rw [(buildOrderParams_spec hsome).2.1, h0]
    simp [huobiPlacedParams, hacc]

/-- Closed witness for C10 at the non-numeric clientID `"abc"`. -/
theorem C10_clientID_parse_error_discarded_witness :
    HUOBIHADAX.SubmitOrder ⟨fun _ => (7, none)⟩ ⟨"BTC", "USD"⟩ .buy .market 1 5 "abc"
        = HUOBIHADAX.SubmitOrder ⟨fun _ => (7, none)⟩ ⟨"BTC", "USD"⟩ .buy .market 1 5 "0"
      ∧ (huobiPlacedParams
          (HUOBIHADAX.SubmitOrder ⟨fun _ => (7, none)⟩ ⟨"BTC", "USD"⟩
            .buy .market 1 5 "abc").2).map (fun q => q.AccountID) = some 0 :=
  C10_clientID_parse_error_discarded ⟨fun _ => (7, none)⟩ ⟨"BTC", "USD"⟩
    .buy .market 1 5 "abc" (by decide) (by decide)

/-- C2: on a cache miss, `FetchTicker` delegates to `UpdateTicker` — the
whole run (result, store, network trace) is exactly `UpdateTicker`'s, so
there is exactly one refresh and the returned value is the one
`UpdateTicker` produces for that key; on a cache hit, it returns the
cached snapshot, leaves the store untouched and issues zero network
calls; `UpdateTicker` always issues exactly one network call — on both
adapters. -/
theorem C2_fetchTicker_fetch_or_refresh (ienv : ItBitMarketEnv) (henv : HuobiMarketEnv)
    (name : String) (store : TickerStore) (p : CurrencyPair) (assetType : String) :
    ((tickerGetTicker store name p assetType).2.isSome →
        ItBit.FetchTicker ienv name store p assetType
            = ItBit.UpdateTicker ienv name store p assetType
          ∧ HUOBIHADAX.FetchTicker henv name store p assetType
            = HUOBIHADAX.UpdateTicker henv name store p assetType)
      ∧ ((tickerGetTicker store name p assetType).2 = none →
          ItBit.FetchTicker ienv name store p assetType
              = (((tickerGetTicker store name p assetType).1, none), store, [])
            ∧ HUOBIHADAX.FetchTicker henv name store p assetType
              = (((tickerGetTicker store name p assetType).1, none), store, []))
      ∧ (ItBit.UpdateTicker ienv name store p assetType).2.2.length = 1
      ∧ (HUOBIHADAX.UpdateTicker henv name store p assetType).2.2.length = 1 := by
  refine ⟨?_, ?_, ?_, ?_⟩
  · intro hmiss
    rcases hg : tickerGetTicker store name p assetType with ⟨t, gerr⟩
    rw [hg] at hmiss
    cases gerr with
    | none => simp at hmiss
    | some e =>
      constructor
      · simp [ItBit.FetchTicker, hg]
      · simp [HUOBIHADAX.FetchTicker, hg]
  · intro hhit
    rcases hg : tickerGetTicker store name p assetType with ⟨t, gerr⟩
    rw [hg] at hhit
    simp only at hhit
    subst hhit
    constructor
    · simp [ItBit.FetchTicker, hg]
    · simp [HUOBIHADAX.FetchTicker, hg]
  · unfold ItBit.UpdateTicker
    rcases ht : ienv.getTicker (formatExchangeCurrency name p) with ⟨tick, terr⟩
    cases terr <;> simp [ht]
  · unfold HUOBIHADAX.UpdateTicker
    rcases ht : henv.getMarketDetailMerged (formatExchangeCurrency name p) with ⟨tick, terr⟩
    cases terr <;> simp [ht]

/-- Closed witness for C2: a cold cache (`[]`) delegates to the refresh
on both adapters; a warm cache returns the stored snapshot with no
network call on both adapters. -/
theorem C2_fetchTicker_fetch_or_refresh_witness :
    (ItBit.FetchTicker (testItBitMarketEnv {} {}) "X" [] ⟨"BTC", "USD"⟩ "spot"
          = ItBit.UpdateTicker (testItBitMarketEnv {} {}) "X" [] ⟨"BTC", "USD"⟩ "spot"
        ∧ HUOBIHADAX.FetchTicker (testHuobiMarketEnv {}) "X" [] ⟨"BTC", "USD"⟩ "spot"
          = HUOBIHADAX.UpdateTicker (testHuobiMarketEnv {}) "X" [] ⟨"BTC", "USD"⟩ "spot")
      ∧ (ItBit.FetchTicker (testItBitMarketEnv {} {}) "X"
            [(⟨"X", ⟨"BTC", "USD"⟩, "spot"⟩, { Pair := ⟨"BTC", "USD"⟩, Last := 5 })]
            ⟨"BTC", "USD"⟩ "spot"
          = (((tickerGetTicker
                [(⟨"X", ⟨"BTC", "USD"⟩, "spot"⟩, { Pair := ⟨"BTC", "USD"⟩, Last := 5 })]
                "X" ⟨"BTC", "USD"⟩ "spot").1, none),
             [(⟨"X", ⟨"BTC", "USD"⟩, "spot"⟩, { Pair := ⟨"BTC", "USD"⟩, Last := 5 })], [])
        ∧ HUOBIHADAX.FetchTicker (testHuobiMarketEnv {}) "X"
            [(⟨"X", ⟨"BTC", "USD"⟩, "spot"⟩, { Pair := ⟨"BTC", "USD"⟩, Last := 5 })]
            ⟨"BTC", "USD"⟩ "spot"
          = (((tickerGetTicker
                [(⟨"X", ⟨"BTC", "USD"⟩, "spot"⟩, { Pair := ⟨"BTC", "USD"⟩, Last := 5 })]
                "X" ⟨"BTC", "USD"⟩ "spot").1, none),
             [(⟨"X", ⟨"BTC", "USD"⟩, "spot"⟩, { Pair := ⟨"BTC", "USD"⟩, Last := 5 })], [])) :=
  ⟨(C2_fetchTicker_fetch_or_refresh (testItBitMarketEnv {} {}) (testHuobiMarketEnv {})
      "X" [] ⟨"BTC", "USD"⟩ "spot").1 (by decide),
   (C2_fetchTicker_fetch_or_refresh (testItBitMarketEnv {} {}) (testHuobiMarketEnv {})
      "X" [(⟨"X", ⟨"BTC", "USD"⟩, "spot"⟩, { Pair := ⟨"BTC", "USD"⟩, Last := 5 })]
      ⟨"BTC", "USD"⟩ "spot").2.1 (by decide)⟩

/-- C6: when the venue returns a raw depth payload (however malformed its
price/amount strings), `ItBit.UpdateOrderbook` does not fail: it returns
a snapshot with exactly one level per raw entry in which every parsable
field carries its converted numeric value and every unparsable field is
zero (the conversion failures are only logged). -/
theorem C6_orderbook_partial_parse (env : ItBitMarketEnv) (name : String)
    (store : OrderbookStore) (p : CurrencyPair) (assetType : String) (raw : RawOrderbook)
    (hr : env.getOrderbook (formatExchangeCurrency name p) = (raw, none)) :
    (ItBit.UpdateOrderbook env name store p assetType).1.2 = none
      ∧ (ItBit.UpdateOrderbook env name store p assetType).1.1.Bids
        = raw.Bids.map (fun d =>
            { Amount := (parseDecimal d.2).getD 0, Price := (parseDecimal d.1).getD 0 })
      ∧ (ItBit.UpdateOrderbook env name store p assetType).1.1.Asks
        = raw.Asks.map (fun d =>
            { Amount := (parseDecimal d.2).getD 0, Price := (parseDecimal d.1).getD 0 }) := by
  have hfun : ItBit.convertLevel = fun d : String × String =>
      ({ Amount := (parseDecimal d.2).getD 0,
         Price := (parseDecimal d.1).getD 0 } : OrderbookItem) := by
    funext d
    unfold ItBit.convertLevel goParseFloat
    cases h1 : parseDecimal d.1 <;> cases h2 : parseDecimal d.2 <;> simp [h1, h2]
  unfold ItBit.UpdateOrderbook
  rw [hfun]
  simp [hr, orderbookGetOrderbook, orderbookProcessOrderbook, storeLookup]

/-- Closed witness for C6: a payload with the unparsable price `"abc"`
and the unparsable amount `"x"` still yields a full snapshot (zero where
unparsable, converted values elsewhere) and no error. -/
theorem C6_orderbook_partial_parse_witness :
    (ItBit.UpdateOrderbook
        (testItBitMarketEnv {}
          { Bids := [("abc", "2"), ("1.5", "3")], Asks := [("4", "x")] })
        "X" [] ⟨"BTC", "USD"⟩ "spot").1.2 = none
      ∧ (ItBit.UpdateOrderbook
          (testItBitMarketEnv {}
            { Bids := [("abc", "2"), ("1.5", "3")], Asks := [("4", "x")] })
          "X" [] ⟨"BTC", "USD"⟩ "spot").1.1.Bids
        = ([("abc", "2"), ("1.5", "3")] : List (String × String)).map (fun d =>
            { Amount := (parseDecimal d.2).getD 0, Price := (parseDecimal d.1).getD 0 })
      ∧ (ItBit.UpdateOrderbook
          (testItBitMarketEnv {}
            { Bids := [("abc", "2"), ("1.5", "3")], Asks := [("4", "x")] })
          "X" [] ⟨"BTC", "USD"⟩ "spot").1.1.Asks
        = ([("4", "x")] : List (String × String)).map (fun d =>
            { Amount := (parseDecimal d.2).getD 0, Price := (parseDecimal d.1).getD 0 }) :=
  C6_orderbook_partial_parse
    (testItBitMarketEnv {}
      { Bids := [("abc", "2"), ("1.5", "3")], Asks := [("4", "x")] })
    "X" [] ⟨"BTC", "USD"⟩ "spot"
    { Bids := [("abc", "2"), ("1.5", "3")], Asks := [("4", "x")] } rfl

end GoCryptoTrader
